import Mathlib

set_option maxHeartbeats 1000000
set_option maxRecDepth 16384

/-!
Shallow embedding of the HeadlineTrail ingestion pipeline (`update_db.py`)
together with the JSON reload helper of `backend_api.py`.

Python strings are modelled as lists of unicode scalar values (`List Char`);
`Option` models values that may be Python `None`.  External effects (HTTP
fetches, the HTML soup, the LLM call, `pd.to_datetime`, `datetime.now`) are
passed in as explicit parameters, so every function here is executable.
-/

/-- A Python string, modelled as its sequence of unicode scalar values. -/
abbrev PyStr := List Char

/-- The characters stripped by Python `str.strip()` (and matched by the regex
    class `\s` for `str` patterns): the characters with `str.isspace() == True`. -/
def isPySpace (c : Char) : Bool :=
  (0x9 ≤ c.toNat && c.toNat ≤ 0xd) || (0x1c ≤ c.toNat && c.toNat ≤ 0x1f) ||
  c.toNat == 0x20 || c.toNat == 0x85 || c.toNat == 0xa0 || c.toNat == 0x1680 ||
  (0x2000 ≤ c.toNat && c.toNat ≤ 0x200a) || c.toNat == 0x2028 || c.toNat == 0x2029 ||
  c.toNat == 0x202f || c.toNat == 0x205f || c.toNat == 0x3000

/-- Python `s.strip()`: remove leading and trailing whitespace. -/
def pyStrip (s : PyStr) : PyStr :=
  ((s.dropWhile isPySpace).reverse.dropWhile isPySpace).reverse

/-- Python truthiness of an optional string: `None` and `""` are falsy. -/
def pyTruthy : Option PyStr → Bool
  | none => false
  | some s => !s.isEmpty

/-- Pydantic model `TimelineEntry` of `update_db.py`. -/
structure TimelineEntry where
  year : PyStr
  title : PyStr
  summary : PyStr
deriving DecidableEq, Repr

/-- Pydantic model `GlossaryEntry` of `update_db.py`. -/
structure GlossaryEntry where
  word : PyStr
  definition : PyStr
deriving DecidableEq, Repr

/-! ### json.dumps (the serialisation used by `insert_or_update_article`)

`json.dumps` is called with default options, so `ensure_ascii=True` and the
separators are `", "` and `": "`.  The encoder escapes the backslash, the
double quote, everything below `0x20` (with the five short escapes for
backspace, tab, newline, form feed and carriage return) and everything above
`0x7e` (as `\uXXXX`, using a surrogate pair above `0xffff`), exactly as
CPython's `py_encode_basestring_ascii`. -/

/-- Lower-case hex digit, as produced by Python's `'%04x'` formatting. -/
def hexDigitChar (n : Nat) : Char :=
  if n < 10 then Char.ofNat (0x30 + n) else Char.ofNat (0x57 + n)

/-- Four-digit lower-case hex rendering of `n < 0x10000`. -/
def hex4 (n : Nat) : PyStr :=
  [hexDigitChar (n / 4096 % 16), hexDigitChar (n / 256 % 16),
   hexDigitChar (n / 16 % 16), hexDigitChar (n % 16)]

/-- `json.dumps` encoding of one character of a string. -/
def encChar (c : Char) : PyStr :=
  if c = '\\' then ['\\', '\\']
  else if c = '"' then ['\\', '"']
  else if c = '\x08' then ['\\', 'b']
  else if c = '\x09' then ['\\', 't']
  else if c = '\x0a' then ['\\', 'n']
  else if c = '\x0c' then ['\\', 'f']
  else if c = '\x0d' then ['\\', 'r']
  else if 0x20 ≤ c.toNat ∧ c.toNat ≤ 0x7e then [c]
  else if c.toNat < 0x10000 then ['\\', 'u'] ++ hex4 c.toNat
  else
    ['\\', 'u'] ++ hex4 (0xd800 + (c.toNat - 0x10000) / 0x400) ++
    ['\\', 'u'] ++ hex4 (0xdc00 + (c.toNat - 0x10000) % 0x400)

/-- `json.dumps` encoding of the body of a string. -/
def encBody : PyStr → PyStr
  | [] => []
  | c :: s => encChar c ++ encBody s

/-- `json.dumps` of a Python string: quotes around the escaped body. -/
def encString (s : PyStr) : PyStr :=
  ['"'] ++ encBody s ++ ['"']

/-- A serialised dict key followed by the `": "` separator. -/
def keyPat (key : PyStr) : PyStr :=
  encString key ++ [':', ' ']

/-- `json.dumps` of one timeline entry (pydantic `model_dump` preserves the
    field order `year`, `title`, `summary`). -/
def dumpsTimelineEntry (e : TimelineEntry) : PyStr :=
  ['\x7b'] ++ keyPat "year".data ++ encString e.year ++
  [',', ' '] ++ keyPat "title".data ++ encString e.title ++
  [',', ' '] ++ keyPat "summary".data ++ encString e.summary ++ ['\x7d']

/-- `json.dumps` of one glossary entry (field order `word`, `definition`). -/
def dumpsGlossaryEntry (e : GlossaryEntry) : PyStr :=
  ['\x7b'] ++ keyPat "word".data ++ encString e.word ++
  [',', ' '] ++ keyPat "definition".data ++ encString e.definition ++ ['\x7d']

/-- The tail of a serialised JSON list after the first element: the remaining
    elements each led by `", "`, then the closing bracket. -/
def dumpsEntriesRest (f : α → PyStr) : List α → PyStr
  | [] => [']']
  | e :: es => [',', ' '] ++ f e ++ dumpsEntriesRest f es

/-- `json.dumps` of a list, with the default `", "` separator. -/
def dumpsJsonList (f : α → PyStr) : List α → PyStr
  | [] => ['[', ']']
  | e :: es => ['['] ++ f e ++ dumpsEntriesRest f es

/-- The JSON string stored in the `historical_context` column. -/
def dumpsTimeline (l : List TimelineEntry) : PyStr :=
  dumpsJsonList dumpsTimelineEntry l

/-- The JSON string stored in the `glossary` column. -/
def dumpsGlossary (l : List GlossaryEntry) : PyStr :=
  dumpsJsonList dumpsGlossaryEntry l

/-! ### json.loads (used through `safe_json_loads` in `backend_api.py`)

The reload path only ever sees strings produced by the `json.dumps` calls
above, so the parser below models `json.loads` on that canonical grammar: a
JSON array of flat objects with known keys in their serialised order, strings
unescaped exactly as CPython's `scanstring` does (including recombining
surrogate pairs; a lone surrogate escape, which `json.dumps` never produces
and which is not a unicode scalar value, is rejected). -/

/-- Hex digit value, both cases accepted, as in `json.loads`. -/
def hexVal (c : Char) : Option Nat :=
  if 0x30 ≤ c.toNat ∧ c.toNat ≤ 0x39 then some (c.toNat - 0x30)
  else if 0x61 ≤ c.toNat ∧ c.toNat ≤ 0x66 then some (c.toNat - 0x57)
  else if 0x41 ≤ c.toNat ∧ c.toNat ≤ 0x46 then some (c.toNat - 0x37)
  else none

/-- Parse exactly four hex digits. -/
def parseHex4 : PyStr → Option (Nat × PyStr)
  | c3 :: c2 :: c1 :: c0 :: r =>
    match hexVal c3, hexVal c2, hexVal c1, hexVal c0 with
    | some d3, some d2, some d1, some d0 =>
      some (((d3 * 16 + d2) * 16 + d1) * 16 + d0, r)
    | _, _, _, _ => none
  | _ => none

/-- The single-character escapes accepted after a backslash. -/
def unescapeChar (e : Char) : Option Char :=
  if e = '"' then some '"'
  else if e = '\\' then some '\\'
  else if e = '/' then some '/'
  else if e = 'b' then some '\x08'
  else if e = 'f' then some '\x0c'
  else if e = 'n' then some '\x0a'
  else if e = 'r' then some '\x0d'
  else if e = 't' then some '\x09'
  else none

/-- Scan the body of a JSON string after its opening quote, returning the
    decoded content and the input after the closing quote.  `fuel` bounds the
    recursion; one unit is spent per decoded character. -/
def parseStringBody : Nat → PyStr → Option (PyStr × PyStr)
  | 0, _ => none
  | _ + 1, [] => none
  | fuel + 1, c :: r =>
    if c = '"' then some ([], r)
    else if c = '\\' then
      match r with
      | [] => none
      | e :: r2 =>
        if e = 'u' then
          match parseHex4 r2 with
          | none => none
          | some (n, r3) =>
            if 0xd800 ≤ n ∧ n ≤ 0xdbff then
              match r3 with
              | b1 :: b2 :: r4 =>
                if b1 = '\\' ∧ b2 = 'u' then
                  match parseHex4 r4 with
                  | none => none
                  | some (n2, r5) =>
                    if 0xdc00 ≤ n2 ∧ n2 ≤ 0xdfff then
                      match parseStringBody fuel r5 with
                      | none => none
                      | some (s, rest) =>
                        some (Char.ofNat (0x10000 + (n - 0xd800) * 0x400 + (n2 - 0xdc00)) :: s, rest)
                    else none
                else none
              | _ => none
            else if 0xdc00 ≤ n ∧ n ≤ 0xdfff then none
            else
              match parseStringBody fuel r3 with
              | none => none
              | some (s, rest) => some (Char.ofNat n :: s, rest)
        else
          match unescapeChar e with
          | none => none
          | some d =>
            match parseStringBody fuel r2 with
            | none => none
            | some (s, rest) => some (d :: s, rest)
    else
      match parseStringBody fuel r with
      | none => none
      | some (s, rest) => some (c :: s, rest)

/-- Parse a JSON string literal (opening quote then body). -/
def parseString (fuel : Nat) (l : PyStr) : Option (PyStr × PyStr) :=
  match l with
  | [] => none
  | c :: r => if c = '"' then parseStringBody fuel r else none

/-- Consume an exact literal character sequence. -/
def expects : PyStr → PyStr → Option PyStr
  | [], l => some l
  | _ :: _, [] => none
  | p :: ps, c :: l => if c = p then expects ps l else none

/-- Parse one serialised timeline entry object. -/
def parseTimelineEntry (fuel : Nat) (l : PyStr) : Option (TimelineEntry × PyStr) :=
  match expects (['\x7b'] ++ keyPat "year".data) l with
  | none => none
  | some l1 =>
    match parseString fuel l1 with
    | none => none
    | some (y, l2) =>
      match expects ([',', ' '] ++ keyPat "title".data) l2 with
      | none => none
      | some l3 =>
        match parseString fuel l3 with
        | none => none
        | some (t, l4) =>
          match expects ([',', ' '] ++ keyPat "summary".data) l4 with
          | none => none
          | some l5 =>
            match parseString fuel l5 with
            | none => none
            | some (s, l6) =>
              match expects ['\x7d'] l6 with
              | none => none
              | some l7 => some (⟨y, t, s⟩, l7)

/-- Parse one serialised glossary entry object. -/
def parseGlossaryEntry (fuel : Nat) (l : PyStr) : Option (GlossaryEntry × PyStr) :=
  match expects (['\x7b'] ++ keyPat "word".data) l with
  | none => none
  | some l1 =>
    match parseString fuel l1 with
    | none => none
    | some (w, l2) =>
      match expects ([',', ' '] ++ keyPat "definition".data) l2 with
      | none => none
      | some l3 =>
        match parseString fuel l3 with
        | none => none
        | some (d, l4) =>
          match expects ['\x7d'] l4 with
          | none => none
          | some l5 => some (⟨w, d⟩, l5)

/-- After one list element: either the closing bracket or `", "` and another
    element.  One unit of fuel is spent per element. -/
def parseEntriesRest (pe : Nat → PyStr → Option (α × PyStr)) :
    Nat → PyStr → Option (List α × PyStr)
  | 0, _ => none
  | _ + 1, [] => none
  | fuel + 1, c :: r =>
    if c = ']' then some ([], r)
    else if c = ',' then
      match r with
      | [] => none
      | c2 :: r2 =>
        if c2 = ' ' then
          match pe fuel r2 with
          | none => none
          | some (a, r3) =>
            match parseEntriesRest pe fuel r3 with
            | none => none
            | some (as, r4) => some (a :: as, r4)
        else none
    else none

/-- Parse a JSON array in the canonical `json.dumps` layout. -/
def parseJsonList (pe : Nat → PyStr → Option (α × PyStr)) (fuel : Nat)
    (l : PyStr) : Option (List α × PyStr) :=
  match l with
  | [] => none
  | c :: r =>
    if c = '[' then
      match r with
      | [] => none
      | c2 :: r2 =>
        if c2 = ']' then some ([], r2)
        else
          match pe fuel r with
          | none => none
          | some (a, r3) =>
            match parseEntriesRest pe fuel r3 with
            | none => none
            | some (as, r4) => some (a :: as, r4)
    else none

/-- `json.loads` of a serialised timeline column: the whole input must be one
    JSON array. -/
def parseTimelineList (s : PyStr) : Option (List TimelineEntry) :=
  match parseJsonList parseTimelineEntry (s.length + 1) s with
  | some (l, []) => some l
  | _ => none

/-- `json.loads` of a serialised glossary column. -/
def parseGlossaryList (s : PyStr) : Option (List GlossaryEntry) :=
  match parseJsonList parseGlossaryEntry (s.length + 1) s with
  | some (l, []) => some l
  | _ => none

/-- `safe_json_loads` from `backend_api.py`, at the timeline column's type:
    `None`/non-string/blank/`"N/A"` give `[]`, a parse failure gives `[]`,
    otherwise the parsed list is returned. -/
def safe_json_loads_timeline (x : Option PyStr) : List TimelineEntry :=
  match x with
  | none => []
  | some s =>
    if pyStrip s = [] then []
    else if s = "N/A".data then []
    else
      match parseTimelineList s with
      | some l => l
      | none => []

/-- `safe_json_loads` from `backend_api.py`, at the glossary column's type. -/
def safe_json_loads_glossary (x : Option PyStr) : List GlossaryEntry :=
  match x with
  | none => []
  | some s =>
    if pyStrip s = [] then []
    else if s = "N/A".data then []
    else
      match parseGlossaryList s with
      | some l => l
      | none => []

/-! ### The article store (`init_db` table layout and `insert_or_update_article`)

The `articles` table is modelled as a list of rows; the `PRIMARY KEY` on
`original_url` is the well-formedness predicate `wfStore`.  `pd.to_datetime`
and `datetime.now().isoformat()` are outside the program, so they enter as the
parameters `normalize` and `now`. -/

/-- One row of the `articles` table. -/
structure ArticleRow where
  original_url : PyStr
  original_title : Option PyStr
  llm_generated_title : Option PyStr
  source : Option PyStr
  published_at : Option PyStr
  published_at_iso : Option PyStr
  article_description : Option PyStr
  article_content : Option PyStr
  article_url_to_image : Option PyStr
  historical_context : PyStr
  glossary : PyStr
  article_category : Option PyStr
  llm_input_source : Option PyStr
  last_updated : PyStr
deriving DecidableEq, Repr

/-- The dict assembled by the pipeline and handed to
    `insert_or_update_article`; missing keys default to `None`
    (the `setdefault` loop). -/
structure ArticleData where
  article_url : Option PyStr := none
  original_title : Option PyStr := none
  llm_generated_title : Option PyStr := none
  source : Option PyStr := none
  published_at : Option PyStr := none
  article_description : Option PyStr := none
  article_content : Option PyStr := none
  article_url_to_image : Option PyStr := none
  historical_context : List TimelineEntry := []
  glossary : List GlossaryEntry := []
  article_category : Option PyStr := none
  llm_input_source : Option PyStr := none
deriving DecidableEq, Repr

/-- Lines 159-164: `published_at_iso` is the normalised date when
    `published_at` is truthy (with `normalize` standing for
    `pd.to_datetime(..., errors='coerce', utc=True).isoformat()`, which may
    fail, giving `None`). -/
def normalizedDate (normalize : PyStr → Option PyStr) : Option PyStr → Option PyStr
  | none => none
  | some s => if s.isEmpty then none else normalize s

/-- The row written for `a` under key `u`: every derived column comes from the
    corresponding entry of `a`, the timeline and glossary are serialised with
    `json.dumps`, and `last_updated` is the current timestamp. -/
def rowOfData (normalize : PyStr → Option PyStr) (now : PyStr)
    (a : ArticleData) (u : PyStr) : ArticleRow where
  original_url := u
  original_title := a.original_title
  llm_generated_title := a.llm_generated_title
  source := a.source
  published_at := a.published_at
  published_at_iso := normalizedDate normalize a.published_at
  article_description := a.article_description
  article_content := a.article_content
  article_url_to_image := a.article_url_to_image
  historical_context := dumpsTimeline a.historical_context
  glossary := dumpsGlossary a.glossary
  article_category := a.article_category
  llm_input_source := a.llm_input_source
  last_updated := now

/-- The `articles` table. -/
abbrev Store := List ArticleRow

/-- The row stored under URL `u`, if any. -/
def lookupRow (u : PyStr) (s : Store) : Option ArticleRow :=
  s.find? (fun r => r.original_url = u)

/-- How many rows carry URL `u`. -/
def countRow (u : PyStr) (s : Store) : Nat :=
  (s.filter (fun r => r.original_url = u)).length

/-- Whether some row carries URL `u`. -/
def hasRow (u : PyStr) (s : Store) : Bool :=
  s.any (fun r => r.original_url = u)

/-- `INSERT ... ON CONFLICT(original_url) DO UPDATE SET ...`: replace the
    conflicting row, else append a new one. -/
def upsertRow (row : ArticleRow) (s : Store) : Store :=
  if hasRow row.original_url s then
    s.map (fun r => if r.original_url = row.original_url then row else r)
  else s ++ [row]

/-- `PRIMARY KEY` invariant: no two rows share a URL. -/
def wfStore (s : Store) : Prop :=
  (s.map (fun r => r.original_url)).Nodup

/-- `insert_or_update_article` (lines 137-223): rejects a missing, empty or
    `"#"` URL before touching the store, otherwise upserts and reports
    success. -/
def insert_or_update_article (normalize : PyStr → Option PyStr) (now : PyStr)
    (a : ArticleData) (s : Store) : Bool × Store :=
  match a.article_url with
  | none => (false, s)
  | some u =>
    if u.isEmpty || u = "#".data then (false, s)
    else (true, upsertRow (rowOfData normalize now a u) s)

/-! ### `get_latest_db_date` (lines 391-407)

`SELECT MAX(published_at_iso)` under SQLite's default `BINARY` collation is
the lexicographic maximum of the non-NULL column values (UTF-8 byte order
agrees with code-point order).  The `if result:` test then also maps an empty
string to `None`.  The final `pd.to_datetime(result).date()` conversion of
the winning ISO string is outside the program and not modelled: the function
returns the maximal ISO string itself. -/

/-- Lexicographic order on strings (the Mathlib lexicographic order on
    `List Char`), as SQLite `BINARY` collation compares TEXT values: UTF-8
    byte order agrees with code-point order. -/
def strLe (a b : PyStr) : Prop :=
  a ≤ b

instance : DecidableRel strLe := fun a b =>
  inferInstanceAs (Decidable (a ≤ b))

/-- Maximum of a list of strings, `none` when empty. -/
def listMaxStr : List PyStr → Option PyStr
  | [] => none
  | d :: rest =>
    match listMaxStr rest with
    | none => some d
    | some m => if strLe d m then some m else some d

/-- `MAX(published_at_iso)`: SQL `MAX` ignores NULLs. -/
def sqlMaxIso (s : Store) : Option PyStr :=
  listMaxStr (s.filterMap (fun r => r.published_at_iso))

/-- `get_latest_db_date`: the maximal stored ISO date string, or `none` when
    the aggregate is NULL or falsy. -/
def get_latest_db_date (s : Store) : Option PyStr :=
  match sqlMaxIso s with
  | none => none
  | some m => if m.isEmpty then none else some m

/-! ### The scraper (`scrape_article_text_newspaper`, lines 256-356)

The network and the HTML are outside the program, so a `ScrapeEnv` carries
what the external calls would produce; the function itself is the translated
control flow.  `newspaperText` is `some t` when method 1 reached the
assignment `content = article.text` with value `t`, and `none` when the
download/parse raised or `article.html` was falsy.  `selectorHits` holds, for
each of the nine CSS selectors in order, the joined filtered paragraph text
when the selector matched (`none` when `select_one` found nothing).
`fetchOk = false` means `requests.get`/`raise_for_status` raised, in which
case `soup` is never bound and method 4 dies with a `NameError` (caught,
yielding `None` overall). -/

structure ScrapeEnv where
  url : PyStr
  newspaperText : Option PyStr
  fetchOk : Bool
  selectorHits : List (Option PyStr)
  allParasText : PyStr
  domainHasReuters : Bool
  domainHasBloomberg : Bool
  reutersJoin : PyStr
  bloombergJoin : PyStr
deriving DecidableEq, Repr

/-- The scraper's result together with which fallback strategies were
    entered. -/
structure ScrapeTrace where
  result : Option PyStr
  invoked2 : Bool
  invoked3 : Bool
  invoked4 : Bool
deriving DecidableEq, Repr

/-- Line 259: `url.startswith(('http://', 'https://'))` after the truthiness
    check. -/
def validUrl (u : PyStr) : Bool :=
  !u.isEmpty && ("http://".data.isPrefixOf u || "https://".data.isPrefixOf u)

/-- `scrape_reuters`: the joined paragraph text, kept only above the length
    threshold. -/
def scrape_reuters (joined : PyStr) : Option PyStr :=
  if joined.length > 200 then some joined else none

/-- `scrape_bloomberg`: same shape as the Reuters handler. -/
def scrape_bloomberg (joined : PyStr) : Option PyStr :=
  if joined.length > 200 then some joined else none

/-- Method 2's selector loop.  Returns `(early, content)`: `early` is the text
    returned from inside the loop, if any; `content` is the last value
    assigned to the `content` variable (which survives into method 3's
    `if not content:` test). -/
def selectorLoop : List (Option PyStr) → Option PyStr → Option PyStr × Option PyStr
  | [], content => (none, content)
  | none :: rest, content => selectorLoop rest content
  | some txt :: rest, _ =>
    if !txt.isEmpty && txt.length > 200 then (some txt, some txt)
    else selectorLoop rest (some txt)

/-- Method 4 (site-specific handlers), reached with `soup` bound. -/
def siteSpecific (env : ScrapeEnv) (inv3 : Bool) : ScrapeTrace where
  result :=
    if env.domainHasReuters then scrape_reuters env.reutersJoin
    else if env.domainHasBloomberg then scrape_bloomberg env.bloombergJoin
    else none
  invoked2 := true
  invoked3 := inv3
  invoked4 := true

/-- Methods 2-4, entered when method 1 did not return; `content1` is the value
    the `content` variable holds on entry. -/
def scrapeBody (env : ScrapeEnv) (content1 : Option PyStr) : ScrapeTrace :=
  if env.fetchOk then
    match selectorLoop env.selectorHits content1 with
    | (some t, _) => ⟨some t, true, false, false⟩
    | (none, contentAfter) =>
      if pyTruthy contentAfter then siteSpecific env false
      else
        let t := env.allParasText
        if !t.isEmpty && t.length > 200 then ⟨some t, true, true, false⟩
        else siteSpecific env true
  else ⟨none, true, false, true⟩

/-- `scrape_article_text_newspaper`: method 1 returns its text only when the
    stripped length strictly exceeds 200 characters; otherwise the later
    strategies run with `content` still holding method 1's last value. -/
def scrape_article_text_newspaper (env : ScrapeEnv) : ScrapeTrace :=
  if !validUrl env.url then ⟨none, false, false, false⟩
  else
    match env.newspaperText with
    | some t =>
      if !t.isEmpty && (pyStrip t).length > 200 then ⟨some t, false, false, false⟩
      else scrapeBody env (some t)
    | none => scrapeBody env none

/-! ### `clean_article_content` (lines 412-428)

`re.sub(r'\[\+\s*\d+\s*chars?\].*$', '', content, flags=re.IGNORECASE)`
removes a truncation marker and the rest of its line, but (no `MULTILINE`)
the `$` anchor only matches at the end of the string or just before a final
newline, so only a marker whose line reaches the end of the input is removed.
Digits are modelled as ASCII digits (the markers NewsAPI emits). -/

/-- Match `[+` whitespace* digits+ whitespace* `char` `s`? `]` at the head of
    the input (case-insensitive), returning the remainder. -/
def matchMarkerHead (l : PyStr) : Option PyStr :=
  match l with
  | c0 :: c1 :: r =>
    if c0 = '[' ∧ c1 = '+' then
      let r1 := r.dropWhile isPySpace
      let ds := r1.takeWhile Char.isDigit
      if ds.isEmpty then none
      else
        let r2 := (r1.dropWhile Char.isDigit).dropWhile isPySpace
        match r2 with
        | a :: b :: c :: d :: r3 =>
          if a.toLower = 'c' ∧ b.toLower = 'h' ∧ c.toLower = 'a' ∧ d.toLower = 'r' then
            match r3 with
            | [] => none
            | e :: r4 =>
              if e.toLower = 's' then
                match r4 with
                | [] => none
                | f :: r5 => if f = ']' then some r5 else none
              else if e = ']' then some r4 else none
          else none
        | _ => none
    else none
  | _ => none

/-- The trailing `.*$` of the pattern: `.` cannot cross a newline and `$` only
    matches at the end of the string or before a single final newline, which
    then survives the substitution. -/
def matchToLineEnd (r : PyStr) : Option PyStr :=
  let a := r.dropWhile (fun c => !(c = '\x0a'))
  if a.isEmpty then some []
  else if a = ['\x0a'] then some ['\x0a']
  else none

/-- One attempt to match the whole pattern at the current position. -/
def tryMarkerMatch (l : PyStr) : Option PyStr :=
  match matchMarkerHead l with
  | none => none
  | some r => matchToLineEnd r

/-- `re.sub` of the marker pattern with `""`: scan left to right and drop the
    matched span (the `$` anchor makes a second match impossible). -/
def subMarker : PyStr → PyStr
  | [] => []
  | c :: rest =>
    match tryMarkerMatch (c :: rest) with
    | some leftover => leftover
    | none => c :: subMarker rest

/-- `clean_article_content`: `None` for falsy input; otherwise substitute,
    strip, add an ellipsis when the text changed, and return `None` when
    nothing is left. -/
def clean_article_content (content : Option PyStr) : Option PyStr :=
  match content with
  | none => none
  | some s =>
    if s.isEmpty then none
    else
      let cleaned := pyStrip (subMarker s)
      let cleaned2 := if cleaned ≠ [] ∧ cleaned ≠ s then cleaned ++ "...".data else cleaned
      if cleaned2.isEmpty then none else some cleaned2

/-! ### The per-article loop body and the day loop
(`process_and_store_articles`, lines 430-543) -/

/-- The fixed category list offered to the LLM (line 76). -/
def ALLOWED_CATEGORIES : List PyStr :=
  ["Politics".data, "Business".data, "Technology".data, "Health".data,
   "Science".data, "Sports".data, "Entertainment".data, "World News".data,
   "US News".data, "Other".data]

/-- One raw NewsAPI article record, with the fields the loop body reads. -/
structure RawArticle where
  url : Option PyStr := none
  title : Option PyStr := none
  sourceName : Option PyStr := none
  publishedAt : Option PyStr := none
  description : Option PyStr := none
  content : Option PyStr := none
  urlToImage : Option PyStr := none
deriving DecidableEq, Repr

/-- The parsed structured LLM response (`OutputResponseFormat`); pydantic
    makes every field required, so a successful parse always carries all
    four. -/
structure LlmOutput where
  title_entry : PyStr
  timeline_entries : List TimelineEntry
  glossary_entries : List GlossaryEntry
  article_category : PyStr
deriving DecidableEq, Repr

/-- The orchestrator state the loop body touches: the store, the collected
    error messages, and the saved counters. -/
structure PipeState where
  store : Store
  errors : List PyStr
  dailyCount : Nat
  totalSaved : Nat
deriving DecidableEq, Repr

/-- Error recorded for a missing or `"#"` URL (line 470). -/
def invalidUrlMsg (dateStr : PyStr) : PyStr :=
  "Invalid URL for article on ".data ++ dateStr

/-- Error recorded when no content could be obtained (line 497). -/
def noContentMsg (u : PyStr) : PyStr :=
  "No content available for ".data ++ u

/-- Lines 489-494: the fallback chain run on the scraping result. `scraped`
    is what the (deterministic) scraping attempts produced; when it is falsy
    the cleaned API `content` snippet is used if `content` is truthy, else the
    API `description` if truthy, else the falsy scraped value survives. -/
def chooseContent (scraped apiContent apiDescription : Option PyStr) : Option PyStr :=
  if pyTruthy scraped then scraped
  else if pyTruthy apiContent then clean_article_content apiContent
  else if pyTruthy apiDescription then apiDescription
  else scraped

/-- Lines 500-503: the LLM input is truncated to its first 15000 characters
    with an appended ellipsis when longer than 15000. -/
def prepareTextForLLM (t : PyStr) : PyStr :=
  if 15000 < t.length then t.take 15000 ++ "...".data else t

/-- One iteration of the per-article loop (lines 464-525).  `scraped` is the
    scraping outcome (the bounded retry loop re-runs the same deterministic
    call, so its final value is that outcome), `llm` is the enrichment call
    `get_timeline_and_glossary`, returning `none` on any parse failure, empty
    response or provider error. -/
def processArticle (normalize : PyStr → Option PyStr) (now dateStr : PyStr)
    (scraped : Option PyStr) (llm : PyStr → Option LlmOutput)
    (a : RawArticle) (st : PipeState) : PipeState :=
  match a.url with
  | none => { st with errors := st.errors ++ [invalidUrlMsg dateStr] }
  | some u =>
    if u.isEmpty || u = "#".data then
      { st with errors := st.errors ++ [invalidUrlMsg dateStr] }
    else
      let articleContent := chooseContent scraped a.content a.description
      if !pyTruthy articleContent then
        { st with errors := st.errors ++ [noContentMsg u] }
      else
        let textForLLM := prepareTextForLLM (articleContent.getD [])
        if textForLLM.isEmpty then st
        else
          match llm textForLLM with
          | none => st
          | some out =>
            let dbData : ArticleData :=
              { article_url := some u
                llm_generated_title := some out.title_entry
                original_title := some (a.title.getD "N/A".data)
                source := some (a.sourceName.getD "N/A".data)
                published_at := some (a.publishedAt.getD "N/A".data)
                article_content := articleContent
                article_url_to_image := a.urlToImage
                historical_context := out.timeline_entries
                glossary := out.glossary_entries
                article_category := some out.article_category
                article_description := none
                llm_input_source := none }
            match insert_or_update_article normalize now dbData st.store with
            | (true, s2) =>
              { st with store := s2, dailyCount := st.dailyCount + 1,
                        totalSaved := st.totalSaved + 1 }
            | (false, s2) => { st with store := s2 }

/-- Line 438: the start date of the run, with dates as day numbers.
    `watermark` is `get_latest_db_date()`'s result as a day (a `datetime.date`
    is always truthy, so the `if latest_db_date` test is exactly
    `Option.isSome`). -/
def computeStartDate (watermark : Option Int) (today : Int) : Int :=
  match watermark with
  | some d => d + 1
  | none => today - 30

/-- The `while start_date <= current_date` loop (lines 450-530): the sequence
    of dates processed, each appended to `result['dates_processed']` on both
    the empty-fetch path and the normal path before the date advances by one
    day. -/
def datesProcessed (start today : Int) : List Int :=
  if h : start ≤ today then start :: datesProcessed (start + 1) today else []
termination_by (today + 1 - start).toNat
decreasing_by omega

/-- Fuel needed to parse a serialised list: one unit per element plus enough
    for each element's strings. -/
def listFuel (sz : α → Nat) : List α → Nat
  | [] => 1
  | e :: es => 1 + sz e + listFuel sz es

/-- Combined string size of a timeline entry. -/
def tSize (e : TimelineEntry) : Nat :=
  e.year.length + e.title.length + e.summary.length

/-- Combined string size of a glossary entry. -/
def gSize (e : GlossaryEntry) : Nat :=
  e.word.length + e.definition.length

/-! ### Concrete inputs used by witnesses and counterexamples -/

def c2Url : PyStr := "http://example.com/a".data

def c2A1 : ArticleData :=
  { article_url := some c2Url, original_title := some "first title".data,
    article_content := some "first text".data }

def c2A2 : ArticleData :=
  { article_url := some c2Url, original_title := some "second title".data,
    article_content := some "second text".data,
    article_category := some "Politics".data }

def c3Row1 : ArticleRow :=
  { original_url := "http://example.com/1".data, original_title := none,
    llm_generated_title := none, source := none, published_at := none,
    published_at_iso := some "2024-01-01T00:00:00+00:00".data,
    article_description := none, article_content := none,
    article_url_to_image := none, historical_context := "[]".data,
    glossary := "[]".data, article_category := none, llm_input_source := none,
    last_updated := [] }

def c3Row2 : ArticleRow :=
  { original_url := "http://example.com/2".data, original_title := none,
    llm_generated_title := none, source := none, published_at := none,
    published_at_iso := some "2024-02-03T00:00:00+00:00".data,
    article_description := none, article_content := none,
    article_url_to_image := none, historical_context := "[]".data,
    glossary := "[]".data, article_category := none, llm_input_source := none,
    last_updated := [] }

def c4Text200 : PyStr := List.replicate 200 'a'

def c4Text201 : PyStr := List.replicate 201 'a'

/-- A fake URL whose strategy-1 text has exactly 200 characters and whose
    HTTP fetch fails. -/
def c4EnvCex : ScrapeEnv :=
  { url := "http://example.com/x".data, newspaperText := some c4Text200,
    fetchOk := false, selectorHits := [], allParasText := [],
    domainHasReuters := false, domainHasBloomberg := false,
    reutersJoin := [], bloombergJoin := [] }

/-- A fake URL whose strategy-1 text has 201 characters. -/
def c4EnvWit : ScrapeEnv :=
  { url := "http://example.com/y".data, newspaperText := some c4Text201,
    fetchOk := true, selectorHits := [some (List.replicate 300 'b')],
    allParasText := List.replicate 300 'c', domainHasReuters := false,
    domainHasBloomberg := false, reutersJoin := [], bloombergJoin := [] }

def c1Raw : RawArticle :=
  { url := some "http://example.com/a1".data, title := some "Original".data,
    sourceName := some "Src".data, publishedAt := none, description := none,
    content := none, urlToImage := none }

/-- An enrichment result whose category string is outside the fixed list. -/
def c1Out : LlmOutput :=
  { title_entry := "Generated".data, timeline_entries := [],
    glossary_entries := [], article_category := "Banana".data }

def emptyState : PipeState :=
  { store := [], errors := [], dailyCount := 0, totalSaved := 0 }

def c6RawContent : RawArticle :=
  { url := some "http://example.com/c1".data,
    content := some "Body text [+123 chars]".data,
    description := some "A description".data }

def c6RawDesc : RawArticle :=
  { url := some "http://example.com/c2".data, content := none,
    description := some "A description".data }

def c6RawNone : RawArticle :=
  { url := some "http://example.com/c3".data, content := none,
    description := none }

def c7Raw : RawArticle :=
  { url := some "http://example.com/d1".data,
    content := some "Some api content".data, description := none }

def c10Data : ArticleData :=
  { article_url := some "#".data, original_title := some "hash url".data }

/-! ### Lemmas: the serialiser and the parser are inverse -/

/-- Every unicode scalar value avoids the surrogate block. -/
theorem char_toNat_valid (c : Char) :
    c.toNat < 0xd800 ∨ (0xdfff < c.toNat ∧ c.toNat < 0x110000) := by
  rcases c.valid with h | ⟨h1, h2⟩
  · exact Or.inl (UInt32.toNat_lt_of_lt (by decide) h)
  · exact Or.inr ⟨UInt32.lt_toNat_of_lt (by decide) h1,
      UInt32.toNat_lt_of_lt (by decide) h2⟩

/-- Decoding a produced hex digit gives the digit back. -/
theorem hexVal_hexDigitChar : ∀ n, n < 16 → hexVal (hexDigitChar n) = some n := by
  decide

/-- `parseHex4` undoes `hex4`. -/
theorem parseHex4_hex4 (n : Nat) (h : n < 0x10000) (r : PyStr) :
    parseHex4 (hex4 n ++ r) = some (n, r) := by
  have h3 : n / 4096 % 16 < 16 := Nat.mod_lt _ (by norm_num)
  have h2 : n / 256 % 16 < 16 := Nat.mod_lt _ (by norm_num)
  have h1 : n / 16 % 16 < 16 := Nat.mod_lt _ (by norm_num)
  have h0 : n % 16 < 16 := Nat.mod_lt _ (by norm_num)
  simp only [hex4, List.cons_append, List.nil_append, parseHex4,
    hexVal_hexDigitChar _ h3, hexVal_hexDigitChar _ h2,
    hexVal_hexDigitChar _ h1, hexVal_hexDigitChar _ h0]
  congr 1
  congr 1
  omega

/-- Decoding an encoded string body restores the original characters. -/
theorem parseStringBody_encBody (s : PyStr) :
    ∀ (rest : PyStr) (fuel : Nat), s.length < fuel →
      parseStringBody fuel (encBody s ++ '"' :: rest) = some (s, rest) := by
  induction s with
  | nil =>
    intro rest fuel h
    obtain ⟨f, rfl⟩ : ∃ f, fuel = f + 1 := ⟨fuel - 1, by omega⟩
    simp [encBody, parseStringBody]
  | cons c s ih =>
    intro rest fuel h
    obtain ⟨f, rfl⟩ : ∃ f, fuel = f + 1 := ⟨fuel - 1, by omega⟩
    have hs : s.length < f := by
      simp only [List.length_cons] at h
      omega
    have hrec := ih rest f hs
    simp only [encBody, List.append_assoc]
    by_cases h1 : c = '\\'
    · subst h1
      simp [encChar, parseStringBody, unescapeChar, hrec]
    by_cases h2 : c = '"'
    · subst h2
      simp [encChar, parseStringBody, unescapeChar, hrec]
    by_cases h3 : c = '\x08'
    · subst h3
      simp [encChar, parseStringBody, unescapeChar, hrec]
    by_cases h4 : c = '\x09'
    · subst h4
      simp [encChar, parseStringBody, unescapeChar, hrec]
    by_cases h5 : c = '\x0a'
    · subst h5
      simp [encChar, parseStringBody, unescapeChar, hrec]
    by_cases h6 : c = '\x0c'
    · subst h6
      simp [encChar, parseStringBody, unescapeChar, hrec]
    by_cases h7 : c = '\x0d'
    · subst h7
      simp [encChar, parseStringBody, unescapeChar, hrec]
    by_cases h8 : 0x20 ≤ c.toNat ∧ c.toNat ≤ 0x7e
    · have he : encChar c = [c] := by
        simp [encChar, h1, h2, h3, h4, h5, h6, h7, h8]
      rw [he]
      simp [parseStringBody, h1, h2, hrec]
    have hval := char_toNat_valid c
    by_cases h9 : c.toNat < 0x10000
    · have he : encChar c = ['\\', 'u'] ++ hex4 c.toNat := by
        simp [encChar, h1, h2, h3, h4, h5, h6, h7, h8, h9]
      have hns1 : ¬(0xd800 ≤ c.toNat ∧ c.toNat ≤ 0xdbff) := by omega
      have hns2 : ¬(0xdc00 ≤ c.toNat ∧ c.toNat ≤ 0xdfff) := by omega
      rw [he]
      simp only [List.cons_append, List.nil_append, List.append_assoc]
      simp [parseStringBody, parseHex4_hex4 _ h9, hns1, hns2, hrec]
    · have he : encChar c =
          ['\\', 'u'] ++ hex4 (0xd800 + (c.toNat - 0x10000) / 0x400) ++
          ['\\', 'u'] ++ hex4 (0xdc00 + (c.toNat - 0x10000) % 0x400) := by
        simp [encChar, h1, h2, h3, h4, h5, h6, h7, h8, h9]
      rw [he]
      simp only [List.cons_append, List.nil_append, List.append_assoc]
      obtain ⟨hi, hhi⟩ : ∃ hi, 0xd800 + (c.toNat - 0x10000) / 0x400 = hi := ⟨_, rfl⟩
      obtain ⟨lo, hlo⟩ : ∃ lo, 0xdc00 + (c.toNat - 0x10000) % 0x400 = lo := ⟨_, rfl⟩
      rw [hhi, hlo]
      have hmod : (c.toNat - 0x10000) % 0x400 < 0x400 :=
        Nat.mod_lt _ (by norm_num)
      have hcv : c.toNat - 0x10000 < 0x100000 := by omega
      have hdiv : (c.toNat - 0x10000) / 0x400 ≤ 0x3ff := by omega
      have hhiv : hi < 0x10000 := by omega
      have hlov : lo < 0x10000 := by omega
      have hhis1 : 0xd800 ≤ hi := by omega
      have hhis2 : hi ≤ 0xdbff := by omega
      have hlos1 : 0xdc00 ≤ lo := by omega
      have hlos2 : lo ≤ 0xdfff := by omega
      have harith : 0x10000 + (hi - 0xd800) * 0x400 + (lo - 0xdc00) = c.toNat := by
        omega
      simp [parseStringBody, parseHex4_hex4 _ hhiv, parseHex4_hex4 _ hlov,
        hhis1, hhis2, hlos1, hlos2, hrec, harith]

/-- Parsing an encoded string restores the original. -/
theorem parseString_encString (s rest : PyStr) (fuel : Nat) (h : s.length < fuel) :
    parseString fuel (encString s ++ rest) = some (s, rest) := by
  have hshape : encString s ++ rest = '"' :: (encBody s ++ '"' :: rest) := by
    simp [encString]
  rw [hshape]
  simp only [parseString, if_pos rfl]
  exact parseStringBody_encBody s rest fuel h

/-- `expects` consumes exactly its pattern. -/
theorem expects_append (p l : PyStr) : expects p (p ++ l) = some l := by
  induction p with
  | nil => simp [expects]
  | cons c p ih => simp [expects, ih]

/-- Parsing a serialised timeline entry restores the entry. -/
theorem parseTimelineEntry_dumps (e : TimelineEntry) (rest : PyStr) (fuel : Nat)
    (hy : e.year.length < fuel) (ht : e.title.length < fuel)
    (hs : e.summary.length < fuel) :
    parseTimelineEntry fuel (dumpsTimelineEntry e ++ rest) = some (e, rest) := by
  have hshape : dumpsTimelineEntry e ++ rest =
      (['\x7b'] ++ keyPat "year".data) ++ (encString e.year ++
        (([',', ' '] ++ keyPat "title".data) ++ (encString e.title ++
          (([',', ' '] ++ keyPat "summary".data) ++ (encString e.summary ++
            (['\x7d'] ++ rest)))))) := by
    simp [dumpsTimelineEntry, List.append_assoc]
  rw [hshape]
  simp only [parseTimelineEntry, expects_append, parseString_encString _ _ _ hy,
    parseString_encString _ _ _ ht, parseString_encString _ _ _ hs]

/-- Parsing a serialised glossary entry restores the entry. -/
theorem parseGlossaryEntry_dumps (e : GlossaryEntry) (rest : PyStr) (fuel : Nat)
    (hw : e.word.length < fuel) (hd : e.definition.length < fuel) :
    parseGlossaryEntry fuel (dumpsGlossaryEntry e ++ rest) = some (e, rest) := by
  have hshape : dumpsGlossaryEntry e ++ rest =
      (['\x7b'] ++ keyPat "word".data) ++ (encString e.word ++
        (([',', ' '] ++ keyPat "definition".data) ++ (encString e.definition ++
          (['\x7d'] ++ rest)))) := by
    simp [dumpsGlossaryEntry, List.append_assoc]
  rw [hshape]
  simp only [parseGlossaryEntry, expects_append, parseString_encString _ _ _ hw,
    parseString_encString _ _ _ hd]

theorem listFuel_pos (sz : α → Nat) (l : List α) : 1 ≤ listFuel sz l := by
  cases l with
  | nil => simp [listFuel]
  | cons a t =>
    simp only [listFuel]
    omega

/-- Parsing the tail of a serialised list restores its elements, given an
    element parser that inverts the element serialiser. -/
theorem parseEntriesRest_dumps {α : Type} (f : α → PyStr)
    (pe : Nat → PyStr → Option (α × PyStr)) (sz : α → Nat)
    (hpe : ∀ (a : α) (rest : PyStr) (fuel : Nat), sz a < fuel →
      pe fuel (f a ++ rest) = some (a, rest)) :
    ∀ (l : List α) (rest : PyStr) (fuel : Nat), listFuel sz l ≤ fuel →
      parseEntriesRest pe fuel (dumpsEntriesRest f l ++ rest) = some (l, rest) := by
  intro l
  induction l with
  | nil =>
    intro rest fuel h
    obtain ⟨g, rfl⟩ : ∃ g, fuel = g + 1 := ⟨fuel - 1, by simp [listFuel] at h; omega⟩
    simp [dumpsEntriesRest, parseEntriesRest]
  | cons e es ih =>
    intro rest fuel h
    simp only [listFuel] at h
    have hes := listFuel_pos sz es
    obtain ⟨g, rfl⟩ : ∃ g, fuel = g + 1 := ⟨fuel - 1, by omega⟩
    have h1 : sz e < g := by omega
    have h2 : listFuel sz es ≤ g := by omega
    have hshape : dumpsEntriesRest f (e :: es) ++ rest =
        ',' :: ' ' :: (f e ++ (dumpsEntriesRest f es ++ rest)) := by
      simp [dumpsEntriesRest, List.append_assoc]
    rw [hshape]
    simp [parseEntriesRest, hpe e _ g h1, ih _ g h2]

/-- Parsing a serialised list restores it, when every element's serialisation
    opens with a brace. -/
theorem parseJsonList_dumps {α : Type} (f : α → PyStr)
    (pe : Nat → PyStr → Option (α × PyStr)) (sz : α → Nat)
    (hpe : ∀ (a : α) (rest : PyStr) (fuel : Nat), sz a < fuel →
      pe fuel (f a ++ rest) = some (a, rest))
    (hhead : ∀ a : α, ∃ t, f a = '\x7b' :: t) :
    ∀ (l : List α) (rest : PyStr) (fuel : Nat), listFuel sz l ≤ fuel →
      parseJsonList pe fuel (dumpsJsonList f l ++ rest) = some (l, rest) := by
  intro l rest fuel h
  cases l with
  | nil => simp [dumpsJsonList, parseJsonList]
  | cons e es =>
    simp only [listFuel] at h
    have hes := listFuel_pos sz es
    obtain ⟨t, hft⟩ := hhead e
    have hshape : dumpsJsonList f (e :: es) ++ rest =
        '[' :: ('\x7b' :: t ++ (dumpsEntriesRest f es ++ rest)) := by
      simp [dumpsJsonList, List.append_assoc, hft]
    rw [hshape]
    have hfe : pe fuel ('\x7b' :: (t ++ (dumpsEntriesRest f es ++ rest)))
        = some (e, dumpsEntriesRest f es ++ rest) := by
      have hbase := hpe e (dumpsEntriesRest f es ++ rest) fuel (by omega)
      rw [hft] at hbase
      simpa using hbase
    simp [parseJsonList, hfe,
      parseEntriesRest_dumps f pe sz hpe es _ fuel (by omega)]

theorem parseTimelineEntry_inv (a : TimelineEntry) (rest : PyStr) (fuel : Nat)
    (h : tSize a < fuel) :
    parseTimelineEntry fuel (dumpsTimelineEntry a ++ rest) = some (a, rest) := by
  simp only [tSize] at h
  exact parseTimelineEntry_dumps a rest fuel (by omega) (by omega) (by omega)

theorem parseGlossaryEntry_inv (a : GlossaryEntry) (rest : PyStr) (fuel : Nat)
    (h : gSize a < fuel) :
    parseGlossaryEntry fuel (dumpsGlossaryEntry a ++ rest) = some (a, rest) := by
  simp only [gSize] at h
  exact parseGlossaryEntry_dumps a rest fuel (by omega) (by omega)

theorem dumpsTimelineEntry_head (e : TimelineEntry) :
    ∃ t, dumpsTimelineEntry e = '\x7b' :: t := by
  simp [dumpsTimelineEntry]

theorem dumpsGlossaryEntry_head (e : GlossaryEntry) :
    ∃ t, dumpsGlossaryEntry e = '\x7b' :: t := by
  simp [dumpsGlossaryEntry]

/-- Escaping never shrinks a string. -/
theorem length_le_length_encBody (s : PyStr) : s.length ≤ (encBody s).length := by
  induction s with
  | nil => simp [encBody]
  | cons c s ih =>
    have hc : 1 ≤ (encChar c).length := by
      unfold encChar
      split_ifs <;> simp [hex4]
    simp only [encBody, List.length_append, List.length_cons]
    omega

theorem tSize_le_dumps (e : TimelineEntry) :
    tSize e ≤ (dumpsTimelineEntry e).length := by
  have hy := length_le_length_encBody e.year
  have ht := length_le_length_encBody e.title
  have hs := length_le_length_encBody e.summary
  simp only [tSize, dumpsTimelineEntry, encString, List.length_append,
    List.length_cons, List.length_nil]
  omega

theorem gSize_le_dumps (e : GlossaryEntry) :
    gSize e ≤ (dumpsGlossaryEntry e).length := by
  have hw := length_le_length_encBody e.word
  have hd := length_le_length_encBody e.definition
  simp only [gSize, dumpsGlossaryEntry, encString, List.length_append,
    List.length_cons, List.length_nil]
  omega

theorem listFuel_le_rest {α : Type} (f : α → PyStr) (sz : α → Nat)
    (hsz : ∀ a, sz a ≤ (f a).length) (l : List α) :
    listFuel sz l ≤ (dumpsEntriesRest f l).length := by
  induction l with
  | nil => simp [listFuel, dumpsEntriesRest]
  | cons e es ih =>
    have := hsz e
    simp only [listFuel, dumpsEntriesRest, List.length_append, List.length_cons,
      List.length_nil] at *
    omega

theorem listFuel_le_dumps {α : Type} (f : α → PyStr) (sz : α → Nat)
    (hsz : ∀ a, sz a ≤ (f a).length) (l : List α) :
    listFuel sz l ≤ (dumpsJsonList f l).length + 1 := by
  cases l with
  | nil => simp [listFuel, dumpsJsonList]
  | cons e es =>
    have h1 := hsz e
    have h2 := listFuel_le_rest f sz hsz es
    simp only [listFuel, dumpsJsonList, List.length_append, List.length_cons,
      List.length_nil] at *
    omega

/-- The timeline column round-trips through `json.loads`. -/
theorem parseTimelineList_dumps (l : List TimelineEntry) :
    parseTimelineList (dumpsTimeline l) = some l := by
  have h := parseJsonList_dumps dumpsTimelineEntry parseTimelineEntry tSize
    parseTimelineEntry_inv dumpsTimelineEntry_head l []
    ((dumpsJsonList dumpsTimelineEntry l).length + 1)
    (listFuel_le_dumps dumpsTimelineEntry tSize tSize_le_dumps l)
  rw [List.append_nil] at h
  unfold parseTimelineList dumpsTimeline
  rw [h]

/-- The glossary column round-trips through `json.loads`. -/
theorem parseGlossaryList_dumps (l : List GlossaryEntry) :
    parseGlossaryList (dumpsGlossary l) = some l := by
  have h := parseJsonList_dumps dumpsGlossaryEntry parseGlossaryEntry gSize
    parseGlossaryEntry_inv dumpsGlossaryEntry_head l []
    ((dumpsJsonList dumpsGlossaryEntry l).length + 1)
    (listFuel_le_dumps dumpsGlossaryEntry gSize gSize_le_dumps l)
  rw [List.append_nil] at h
  unfold parseGlossaryList dumpsGlossary
  rw [h]

/-- A string containing a non-whitespace character does not strip to empty. -/
theorem pyStrip_ne_nil (s : PyStr) (c : Char) (hc : c ∈ s)
    (hw : isPySpace c = false) : pyStrip s ≠ [] := by
  intro hcontra
  unfold pyStrip at hcontra
  rw [List.reverse_eq_nil_iff, List.dropWhile_eq_nil_iff] at hcontra
  have hsplit := List.takeWhile_append_dropWhile (p := isPySpace) (l := s)
  have hcdrop : c ∈ s.dropWhile isPySpace := by
    rcases List.mem_append.mp (by rw [hsplit]; exact hc) with h | h
    · exact absurd (List.mem_takeWhile_imp h) (by simp [hw])
    · exact h
  have := hcontra c (List.mem_reverse.mpr hcdrop)
  simp [hw] at this

theorem dumpsTimeline_head (l : List TimelineEntry) :
    ∃ t, dumpsTimeline l = '[' :: t := by
  cases l <;> simp [dumpsTimeline, dumpsJsonList]

theorem dumpsGlossary_head (l : List GlossaryEntry) :
    ∃ t, dumpsGlossary l = '[' :: t := by
  cases l <;> simp [dumpsGlossary, dumpsJsonList]

/-- `safe_json_loads` recovers the timeline list stored by the pipeline. -/
theorem safe_json_loads_dumpsTimeline (l : List TimelineEntry) :
    safe_json_loads_timeline (some (dumpsTimeline l)) = l := by
  obtain ⟨t, ht⟩ := dumpsTimeline_head l
  have hstrip : pyStrip (dumpsTimeline l) ≠ [] :=
    pyStrip_ne_nil _ '[' (by rw [ht]; exact List.mem_cons_self _ _) (by decide)
  have hna : dumpsTimeline l ≠ "N/A".data := by
    rw [ht]
    simp [show ("N/A".data : List Char) = ['N', '/', 'A'] from rfl]
  simp only [safe_json_loads_timeline]
  rw [if_neg hstrip, if_neg hna, parseTimelineList_dumps]

/-- `safe_json_loads` recovers the glossary list stored by the pipeline. -/
theorem safe_json_loads_dumpsGlossary (l : List GlossaryEntry) :
    safe_json_loads_glossary (some (dumpsGlossary l)) = l := by
  obtain ⟨t, ht⟩ := dumpsGlossary_head l
  have hstrip : pyStrip (dumpsGlossary l) ≠ [] :=
    pyStrip_ne_nil _ '[' (by rw [ht]; exact List.mem_cons_self _ _) (by decide)
  have hna : dumpsGlossary l ≠ "N/A".data := by
    rw [ht]
    simp [show ("N/A".data : List Char) = ['N', '/', 'A'] from rfl]
  simp only [safe_json_loads_glossary]
  rw [if_neg hstrip, if_neg hna, parseGlossaryList_dumps]

/-! ### Lemmas: the store upsert -/

theorem hasRow_false_iff (u : PyStr) (s : Store) :
    hasRow u s = false ↔ ∀ r ∈ s, r.original_url ≠ u := by
  simp [hasRow, List.any_eq_false]

theorem countRow_eq_zero (u : PyStr) (s : Store) (h : hasRow u s = false) :
    countRow u s = 0 := by
  rw [hasRow_false_iff] at h
  simp only [countRow, List.length_eq_zero, List.filter_eq_nil_iff]
  intro r hr
  simpa using h r hr

theorem countRow_one_of_wf (u : PyStr) (s : Store) (hwf : wfStore s)
    (h : hasRow u s = true) : countRow u s = 1 := by
  induction s with
  | nil => simp [hasRow] at h
  | cons r t ih =>
    have hwf2 : wfStore t := (List.nodup_cons.mp hwf).2
    have hnotmem : r.original_url ∉ t.map (fun x => x.original_url) :=
      (List.nodup_cons.mp hwf).1
    by_cases hr : r.original_url = u
    · have htz : countRow u t = 0 := by
        apply countRow_eq_zero
        rw [hasRow_false_iff]
        intro x hx hxu
        exact hnotmem (by rw [hr, ← hxu]; exact List.mem_map_of_mem _ hx)
      simp only [countRow] at htz ⊢
      simp [List.filter_cons, hr, htz]
    · have hht : hasRow u t = true := by
        have h2 := h
        simp only [hasRow, List.any_cons, Bool.or_eq_true, decide_eq_true_eq] at h2
        rcases h2 with hcase | hcase
        · exact absurd hcase hr
        · exact hcase
      have hcnt := ih hwf2 hht
      simp only [countRow] at hcnt ⊢
      simp [List.filter_cons, hr, hcnt]

theorem countRow_map_replace (u : PyStr) (row : ArticleRow) (s : Store)
    (hrow : row.original_url = u) :
    countRow u (s.map (fun r => if r.original_url = u then row else r))
      = countRow u s := by
  induction s with
  | nil => simp [countRow]
  | cons r t ih =>
    by_cases hr : r.original_url = u
    · simp only [List.map_cons, if_pos hr, countRow, List.filter_cons]
      simp only [countRow] at ih
      simp [hrow, hr, ih]
    · simp only [List.map_cons, if_neg hr, countRow, List.filter_cons]
      simp only [countRow] at ih
      simp [hr, ih]

theorem countRow_upsertRow (row : ArticleRow) (s : Store) (hwf : wfStore s) :
    countRow row.original_url (upsertRow row s) = 1 := by
  unfold upsertRow
  by_cases hhas : hasRow row.original_url s
  · rw [if_pos hhas, countRow_map_replace _ _ _ rfl]
    exact countRow_one_of_wf _ _ hwf hhas
  · rw [if_neg hhas]
    have h0 : countRow row.original_url s = 0 :=
      countRow_eq_zero _ _ (by simpa using hhas)
    simp only [countRow, List.filter_append] at *
    simp [h0]

theorem lookupRow_map_replace (u : PyStr) (row : ArticleRow) (s : Store)
    (hrow : row.original_url = u) (h : hasRow u s = true) :
    lookupRow u (s.map (fun r => if r.original_url = u then row else r))
      = some row := by
  induction s with
  | nil => simp [hasRow] at h
  | cons r t ih =>
    by_cases hr : r.original_url = u
    · simp [lookupRow, List.find?_cons, if_pos hr, hrow]
    · have hht : hasRow u t = true := by
        have h2 := h
        simp only [hasRow, List.any_cons, Bool.or_eq_true, decide_eq_true_eq] at h2
        rcases h2 with hcase | hcase
        · exact absurd hcase hr
        · exact hcase
      simp only [List.map_cons, if_neg hr, lookupRow, List.find?_cons] at *
      simpa [hr] using ih hht

theorem lookupRow_append_single (u : PyStr) (row : ArticleRow) (s : Store)
    (hrow : row.original_url = u) (h : hasRow u s = false) :
    lookupRow u (s ++ [row]) = some row := by
  induction s with
  | nil => simp [lookupRow, List.find?_cons, hrow]
  | cons r t ih =>
    simp only [hasRow, List.any_cons, Bool.or_eq_false_iff] at h
    have hr : ¬(r.original_url = u) := by simpa using h.1
    simp only [List.cons_append, lookupRow, List.find?_cons] at *
    simpa [hr] using ih h.2

theorem lookupRow_upsertRow (row : ArticleRow) (s : Store) :
    lookupRow row.original_url (upsertRow row s) = some row := by
  unfold upsertRow
  by_cases hhas : hasRow row.original_url s
  · rw [if_pos hhas]
    exact lookupRow_map_replace _ _ _ rfl hhas
  · rw [if_neg hhas]
    exact lookupRow_append_single _ _ _ rfl (by simpa using hhas)

theorem wfStore_upsertRow (row : ArticleRow) (s : Store) (hwf : wfStore s) :
    wfStore (upsertRow row s) := by
  unfold upsertRow
  by_cases hhas : hasRow row.original_url s
  · rw [if_pos hhas]
    unfold wfStore
    rw [List.map_map]
    have hmaps :
        s.map ((fun r => r.original_url) ∘
          (fun r => if r.original_url = row.original_url then row else r))
          = s.map (fun r => r.original_url) := by
      apply List.map_congr_left
      intro r _
      by_cases hr : r.original_url = row.original_url
      · simp [hr]
      · simp [hr]
    rw [hmaps]
    exact hwf
  · rw [if_neg hhas]
    unfold wfStore
    rw [List.map_append]
    have hnm : row.original_url ∉ s.map (fun r => r.original_url) := by
      have hall := (hasRow_false_iff _ _).mp (by simpa using hhas)
      intro hmem
      obtain ⟨r, hr, hru⟩ := List.mem_map.mp hmem
      exact hall r hr hru
    have hwf2 : (s.map (fun r => r.original_url)).Nodup := hwf
    simp [List.nodup_append, hwf2, hnm]

/-! ### Lemmas: the SQL MAX aggregate -/

theorem strLe_refl (a : PyStr) : strLe a a := le_refl a

theorem strLe_total (a b : PyStr) : strLe a b ∨ strLe b a := le_total a b

theorem strLe_trans (a b c : PyStr) (h1 : strLe a b) (h2 : strLe b c) :
    strLe a c := le_trans h1 h2

theorem listMaxStr_mem (l : List PyStr) (m : PyStr) (h : listMaxStr l = some m) :
    m ∈ l := by
  induction l generalizing m with
  | nil => simp [listMaxStr] at h
  | cons d rest ih =>
    cases hrest : listMaxStr rest with
    | none =>
      simp only [listMaxStr, hrest, Option.some_inj] at h
      exact h ▸ List.mem_cons_self _ _
    | some m2 =>
      simp only [listMaxStr, hrest] at h
      by_cases hle : strLe d m2
      · rw [if_pos hle, Option.some_inj] at h
        exact List.mem_cons_of_mem _ (h ▸ ih _ hrest)
      · rw [if_neg hle, Option.some_inj] at h
        exact h ▸ List.mem_cons_self _ _

theorem listMaxStr_ge (l : List PyStr) (m : PyStr) (h : listMaxStr l = some m) :
    ∀ d ∈ l, strLe d m := by
  induction l generalizing m with
  | nil => simp
  | cons d0 rest ih =>
    intro d hd
    cases hrest : listMaxStr rest with
    | none =>
      have hnil : rest = [] := by
        cases rest with
        | nil => rfl
        | cons x xs =>
          exfalso
          cases hxs : listMaxStr xs with
          | none => simp [listMaxStr, hxs] at hrest
          | some mx =>
            by_cases hx : strLe x mx
            · simp [listMaxStr, hxs, if_pos hx] at hrest
            · simp [listMaxStr, hxs, if_neg hx] at hrest
      subst hnil
      simp only [listMaxStr, Option.some_inj] at h
      have hdm : d = d0 := by simpa using hd
      rw [hdm, h]
      exact strLe_refl _
    | some m2 =>
      simp only [listMaxStr, hrest] at h
      rcases List.mem_cons.mp hd with rfl | hdrest
      · by_cases hle : strLe d m2
        · rw [if_pos hle, Option.some_inj] at h
          exact h ▸ hle
        · rw [if_neg hle, Option.some_inj] at h
          exact h ▸ strLe_refl _
      · have hle2 := ih m2 hrest d hdrest
        by_cases hle : strLe d0 m2
        · rw [if_pos hle, Option.some_inj] at h
          exact h ▸ hle2
        · rw [if_neg hle, Option.some_inj] at h
          rcases strLe_total d0 m2 with hc | hc
          · exact absurd hc hle
          · exact h ▸ strLe_trans _ _ _ hle2 hc

theorem listMaxStr_isSome (l : List PyStr) (hne : l ≠ []) :
    ∃ m, listMaxStr l = some m := by
  cases l with
  | nil => exact absurd rfl hne
  | cons d rest =>
    simp only [listMaxStr]
    cases listMaxStr rest with
    | none => exact ⟨d, rfl⟩
    | some m2 =>
      by_cases hle : strLe d m2
      · exact ⟨m2, if_pos hle⟩
      · exact ⟨d, if_neg hle⟩

/-! ### Lemmas: the day loop -/

theorem mem_datesProcessed (today d : Int) :
    ∀ (n : Nat) (start : Int), (today + 1 - start).toNat = n →
      (d ∈ datesProcessed start today ↔ start ≤ d ∧ d ≤ today) := by
  intro n
  induction n with
  | zero =>
    intro start hn
    have hgt : ¬ start ≤ today := by omega
    rw [datesProcessed]
    simp [hgt]
    omega
  | succ k ih =>
    intro start hn
    by_cases hle : start ≤ today
    · rw [datesProcessed]
      simp only [hle, dite_true, List.mem_cons]
      rw [ih (start + 1) (by omega)]
      constructor
      · rintro (rfl | ⟨h1, h2⟩)
        · exact ⟨le_refl _, hle⟩
        · exact ⟨by omega, h2⟩
      · rintro ⟨h1, h2⟩
        by_cases heq : d = start
        · exact Or.inl heq
        · exact Or.inr ⟨by omega, h2⟩
    · rw [datesProcessed]
      simp [hle]
      omega

/-! ### Claim theorems -/

theorem insert_valid (normalize : PyStr → Option PyStr) (now : PyStr)
    (a : ArticleData) (s : Store) (u : PyStr)
    (h : a.article_url = some u) (hu0 : u ≠ []) (hu1 : u ≠ "#".data) :
    insert_or_update_article normalize now a s
      = (true, upsertRow (rowOfData normalize now a u) s) := by
  simp only [insert_or_update_article, h]
  rw [if_neg]
  simp [List.isEmpty_eq_true, hu0, hu1]

/-- C2: upserting two article records keyed by the same valid URL leaves
    exactly one row for that URL, and that row is precisely the row derived
    from the second record (last write wins, no duplication). -/
theorem upsert_last_write_wins (normalize : PyStr → Option PyStr) (now : PyStr)
    (s : Store) (a1 a2 : ArticleData) (u : PyStr)
    (hwf : wfStore s) (h1 : a1.article_url = some u)
    (h2 : a2.article_url = some u) (hu0 : u ≠ []) (hu1 : u ≠ "#".data) :
    countRow u ((insert_or_update_article normalize now a2
      ((insert_or_update_article normalize now a1 s).2)).2) = 1 ∧
    lookupRow u ((insert_or_update_article normalize now a2
      ((insert_or_update_article normalize now a1 s).2)).2)
      = some (rowOfData normalize now a2 u) := by
  rw [insert_valid normalize now a1 s u h1 hu0 hu1,
    insert_valid normalize now a2 _ u h2 hu0 hu1]
  constructor
  · exact countRow_upsertRow (rowOfData normalize now a2 u) _
      (wfStore_upsertRow _ _ hwf)
  · exact lookupRow_upsertRow (rowOfData normalize now a2 u) _

/-- Witness for C2 at concrete records: after writing `c2A1` then `c2A2`
    under the same URL, one row remains and it carries `c2A2`'s fields. -/
theorem upsert_last_write_wins_witness :
    countRow c2Url ((insert_or_update_article (fun _ => none) [] c2A2
      ((insert_or_update_article (fun _ => none) [] c2A1 []).2)).2) = 1 ∧
    lookupRow c2Url ((insert_or_update_article (fun _ => none) [] c2A2
      ((insert_or_update_article (fun _ => none) [] c2A1 []).2)).2)
      = some (rowOfData (fun _ => none) [] c2A2 c2Url) :=
  upsert_last_write_wins (fun _ => none) [] [] c2A1 c2A2 c2Url
    (by simp [wfStore]) rfl rfl (by decide) (by decide)

/-- C3: `get_latest_db_date` returns no date on an empty store; on a store
    whose ISO strings are well-formed (never the empty string), it returns
    `none` when no row has a date, and otherwise returns the maximum stored
    ISO date string. -/
theorem get_latest_db_date_correct :
    get_latest_db_date ([] : Store) = none ∧
    ∀ s : Store, (∀ r ∈ s, r.published_at_iso ≠ some []) →
      (((∀ r ∈ s, r.published_at_iso = none) → get_latest_db_date s = none) ∧
       (∀ r0 ∈ s, ∀ d0, r0.published_at_iso = some d0 →
         ∃ m, get_latest_db_date s = some m ∧
           (∃ r ∈ s, r.published_at_iso = some m) ∧
           (∀ r ∈ s, ∀ d, r.published_at_iso = some d → strLe d m))) := by
  refine ⟨rfl, ?_⟩
  intro s hwfiso
  constructor
  · intro hall
    have hfm : s.filterMap (fun r => r.published_at_iso) = [] := by
      rw [List.filterMap_eq_nil_iff]
      intro r hr
      exact hall r hr
    unfold get_latest_db_date sqlMaxIso
    rw [hfm]
    rfl
  · intro r0 hr0 d0 hd0
    have hmem : d0 ∈ s.filterMap (fun r => r.published_at_iso) :=
      List.mem_filterMap.mpr ⟨r0, hr0, hd0⟩
    have hne : s.filterMap (fun r => r.published_at_iso) ≠ [] := by
      intro hcontra
      rw [hcontra] at hmem
      simp at hmem
    obtain ⟨m, hm⟩ := listMaxStr_isSome _ hne
    obtain ⟨r, hr, hriso⟩ := List.mem_filterMap.mp (listMaxStr_mem _ _ hm)
    have hub : ∀ r2 ∈ s, ∀ d, r2.published_at_iso = some d → strLe d m := by
      intro r2 hr2 d hd
      exact listMaxStr_ge _ _ hm d (List.mem_filterMap.mpr ⟨r2, hr2, hd⟩)
    have hmne : m ≠ [] := by
      intro hm0
      subst hm0
      exact hwfiso r hr hriso
    refine ⟨m, ?_, ⟨r, hr, hriso⟩, hub⟩
    unfold get_latest_db_date sqlMaxIso
    rw [hm]
    simp [List.isEmpty_eq_true, hmne]

/-- Witness for C3: on a store holding dates D1 < D2 the function returns a
    maximal stored date (namely D2). -/
theorem get_latest_db_date_witness :
    ∃ m, get_latest_db_date [c3Row1, c3Row2] = some m ∧
      (∃ r ∈ [c3Row1, c3Row2], r.published_at_iso = some m) ∧
      (∀ r ∈ [c3Row1, c3Row2], ∀ d, r.published_at_iso = some d → strLe d m) :=
  (get_latest_db_date_correct.2 [c3Row1, c3Row2] (by decide)).2
    c3Row2 (by simp) "2024-02-03T00:00:00+00:00".data rfl

/-- C8: the orchestrator starts at the watermark plus one day when
    `get_latest_db_date` produced a date, at today minus 30 days otherwise,
    and the day loop processes exactly the days from the start date through
    today inclusive. -/
theorem orchestrator_start_and_coverage :
    (∀ w today : Int, computeStartDate (some w) today = w + 1) ∧
    (∀ today : Int, computeStartDate none today = today - 30) ∧
    (∀ start today d : Int,
      d ∈ datesProcessed start today ↔ start ≤ d ∧ d ≤ today) := by
  refine ⟨fun w today => rfl, fun today => rfl, fun start today d => ?_⟩
  exact mem_datesProcessed today d _ start rfl

/-- C9: the serialised timeline and glossary stored by the upsert deserialise
    (through `safe_json_loads`) back to the exact entry lists of the article
    record, for every such pair of lists. -/
theorem stored_entries_roundtrip (normalize : PyStr → Option PyStr)
    (now : PyStr) (a : ArticleData) (u : PyStr) :
    safe_json_loads_timeline
      (some ((rowOfData normalize now a u).historical_context))
      = a.historical_context ∧
    safe_json_loads_glossary (some ((rowOfData normalize now a u).glossary))
      = a.glossary :=
  ⟨safe_json_loads_dumpsTimeline a.historical_context,
   safe_json_loads_dumpsGlossary a.glossary⟩

/-- C10: an article record whose URL is missing, empty or `"#"` makes
    `insert_or_update_article` report failure and leave the store untouched. -/
theorem insert_invalid_url (normalize : PyStr → Option PyStr) (now : PyStr)
    (a : ArticleData) (s : Store)
    (h : a.article_url = none ∨ a.article_url = some [] ∨
      a.article_url = some "#".data) :
    insert_or_update_article normalize now a s = (false, s) := by
  rcases h with h | h | h <;> simp [insert_or_update_article, h]

/-- Witness for C10: the upsert rejects the placeholder URL `"#"`. -/
theorem insert_invalid_url_witness :
    insert_or_update_article (fun _ => none) [] c10Data [c3Row1]
      = (false, [c3Row1]) :=
  insert_invalid_url (fun _ => none) [] c10Data [c3Row1] (Or.inr (Or.inr rfl))

/-- C4 (amended): when the URL is valid and strategy 1 yields text whose
    stripped length strictly exceeds 200 characters, the scraper returns that
    text and strategies 2-4 are never invoked. -/
theorem scraper_strategy1_no_fallback (env : ScrapeEnv) (t : PyStr)
    (hv : validUrl env.url = true) (h1 : env.newspaperText = some t)
    (hlen : 200 < (pyStrip t).length) :
    scrape_article_text_newspaper env = ⟨some t, false, false, false⟩ := by
  have htne : ¬(t.isEmpty = true) := by
    intro h0
    rw [List.isEmpty_eq_true] at h0
    subst h0
    simp [pyStrip] at hlen
  simp [scrape_article_text_newspaper, hv, h1, htne, hlen]

/-- Witness for C4's amended claim: a 201-character strategy-1 text is
    returned untouched, with no fallback strategy entered. -/
theorem scraper_strategy1_no_fallback_witness :
    scrape_article_text_newspaper c4EnvWit
      = ⟨some c4Text201, false, false, false⟩ :=
  scraper_strategy1_no_fallback c4EnvWit c4Text201 (by decide) rfl (by decide)

/-- Counterexample to C4 as stated: a strategy-1 text of exactly 200
    characters ("at least 200") is not returned; the fallback strategies run
    instead. -/
theorem scraper_strategy1_cex :
    c4EnvCex.newspaperText = some c4Text200 ∧
    validUrl c4EnvCex.url = true ∧
    200 ≤ c4Text200.length ∧
    (scrape_article_text_newspaper c4EnvCex).result ≠ some c4Text200 ∧
    (scrape_article_text_newspaper c4EnvCex).invoked2 = true ∧
    (scrape_article_text_newspaper c4EnvCex).invoked4 = true := by
  decide

/-- C5 (amended): an article text longer than 15000 characters is sent as its
    first 15000 characters with `"..."` appended (so its length is 15003 and
    its first 15000 characters are a prefix of the original); shorter texts
    are sent unchanged. -/
theorem prepareText_truncation (t : PyStr) :
    (15000 < t.length →
      prepareTextForLLM t = t.take 15000 ++ "...".data ∧
      (prepareTextForLLM t).length = 15003 ∧
      (prepareTextForLLM t).take 15000 = t.take 15000) ∧
    (t.length ≤ 15000 → prepareTextForLLM t = t) := by
  constructor
  · intro h
    have heq : prepareTextForLLM t = t.take 15000 ++ "...".data := by
      unfold prepareTextForLLM
      rw [if_pos h]
    refine ⟨heq, ?_, ?_⟩
    · rw [heq, List.length_append, List.length_take]
      have h3 : ("...".data : PyStr).length = 3 := rfl
      omega
    · rw [heq, List.take_append_of_le_length (by rw [List.length_take]; omega),
        List.take_take]
      simp
  · intro h
    unfold prepareTextForLLM
    rw [if_neg (by omega)]

/-- Witness for C5's amended claim at a 15001-character text and a short
    text. -/
theorem prepareText_truncation_witness :
    prepareTextForLLM (List.replicate 15001 'a')
      = (List.replicate 15001 'a').take 15000 ++ "...".data ∧
    prepareTextForLLM "ab".data = "ab".data :=
  ⟨((prepareText_truncation (List.replicate 15001 'a')).1
      (by rw [List.length_replicate]; omega)).1,
   (prepareText_truncation "ab".data).2 (by decide)⟩

/-- Counterexample to C5 as stated: for a 15001-character text, the text sent
    to the enrichment client does not have length 15000 (the code appends an
    ellipsis, giving 15003). -/
theorem prepareText_truncation_cex :
    15000 < (List.replicate 15001 'a').length ∧
    (prepareTextForLLM (List.replicate 15001 'a')).length ≠ 15000 := by
  constructor
  · rw [List.length_replicate]
    omega
  · have h : 15000 < (List.replicate 15001 'a').length := by
      rw [List.length_replicate]
      omega
    unfold prepareTextForLLM
    rw [if_pos h, List.length_append, List.length_take, List.length_replicate]
    have h3 : ("...".data : PyStr).length = 3 := rfl
    omega

/-- C6: when every scraping strategy fails, the loop body uses the cleaned
    API content snippet if `content` is truthy, else the API description if
    truthy; and whenever the fallback yields no text the article is skipped:
    the state is unchanged except for exactly one recorded error. -/
theorem scrape_failure_fallback (normalize : PyStr → Option PyStr)
    (now dateStr : PyStr) (llm : PyStr → Option LlmOutput)
    (a : RawArticle) (st : PipeState) (u : PyStr) :
    (pyTruthy a.content = true →
      chooseContent none a.content a.description
        = clean_article_content a.content) ∧
    (pyTruthy a.content = false → pyTruthy a.description = true →
      chooseContent none a.content a.description = a.description) ∧
    (a.url = some u → u ≠ [] → u ≠ "#".data →
      pyTruthy (chooseContent none a.content a.description) = false →
      processArticle normalize now dateStr none llm a st
        = { st with errors := st.errors ++ [noContentMsg u] }) := by
  refine ⟨?_, ?_, ?_⟩
  · intro h
    simp [chooseContent, h, show pyTruthy none = false from rfl]
  · intro h1 h2
    simp [chooseContent, h1, h2, show pyTruthy none = false from rfl]
  · intro hurl hu0 hu1 hfal
    simp [processArticle, hurl, List.isEmpty_eq_true, hu0, hu1, hfal]

/-- Witness for C6: the three fallback behaviours at concrete articles. -/
theorem scrape_failure_fallback_witness :
    chooseContent none c6RawContent.content c6RawContent.description
      = clean_article_content c6RawContent.content ∧
    chooseContent none c6RawDesc.content c6RawDesc.description
      = c6RawDesc.description ∧
    processArticle (fun _ => none) [] [] none (fun _ => none) c6RawNone
        emptyState
      = { emptyState with
          errors := emptyState.errors
            ++ [noContentMsg "http://example.com/c3".data] } :=
  ⟨(scrape_failure_fallback (fun _ => none) [] [] (fun _ => none) c6RawContent
      emptyState []).1 (by decide),
   (scrape_failure_fallback (fun _ => none) [] [] (fun _ => none) c6RawDesc
      emptyState []).2.1 (by decide) (by decide),
   (scrape_failure_fallback (fun _ => none) [] [] (fun _ => none) c6RawNone
      emptyState "http://example.com/c3".data).2.2 rfl (by decide) (by decide)
      (by decide)⟩

/-- C7: when the enrichment call for the article's prepared text fails, the
    loop body writes nothing: the store and the saved counters are exactly as
    before. -/
theorem enrichment_failure_no_write (normalize : PyStr → Option PyStr)
    (now dateStr : PyStr) (scraped : Option PyStr)
    (llm : PyStr → Option LlmOutput) (a : RawArticle) (st : PipeState)
    (h : llm (prepareTextForLLM
      ((chooseContent scraped a.content a.description).getD [])) = none) :
    (processArticle normalize now dateStr scraped llm a st).store = st.store ∧
    (processArticle normalize now dateStr scraped llm a st).dailyCount
      = st.dailyCount ∧
    (processArticle normalize now dateStr scraped llm a st).totalSaved
      = st.totalSaved := by
  simp only [processArticle]
  cases ha : a.url with
  | none => simp
  | some u =>
    rw [h]
    by_cases hu : u = [] ∨ u = ['#']
    · simp [hu, apply_ite]
    · simp [hu, apply_ite]

/-- Witness for C7: a failing enrichment call leaves a one-row store and the
    counters untouched. -/
theorem enrichment_failure_no_write_witness :
    (processArticle (fun _ => none) [] [] none (fun _ => none) c7Raw
      { emptyState with store := [c3Row1] }).store = [c3Row1] ∧
    (processArticle (fun _ => none) [] [] none (fun _ => none) c7Raw
      { emptyState with store := [c3Row1] }).dailyCount = 0 ∧
    (processArticle (fun _ => none) [] [] none (fun _ => none) c7Raw
      { emptyState with store := [c3Row1] }).totalSaved = 0 :=
  enrichment_failure_no_write (fun _ => none) [] [] none (fun _ => none)
    c7Raw { emptyState with store := [c3Row1] } rfl

/-- C1 at its failing input: an enrichment result with the out-of-set
    category `"Banana"` is stored verbatim by the loop body — the stored
    category is `"Banana"`, not `"Other"` (the `getattr(..., 'Other')`
    default never fires because the pydantic field is required). -/
theorem category_not_validated :
    "Banana".data ∉ ALLOWED_CATEGORIES ∧
    "Banana".data ≠ "Other".data ∧
    (lookupRow "http://example.com/a1".data
      (processArticle (fun _ => none) [] [] (some "scraped text".data)
        (fun _ => some c1Out) c1Raw emptyState).store).map
      (fun r => r.article_category)
      = some (some "Banana".data) := by
  decide

/-- Witness for C8 at concrete dates: watermark 100 starts at 101, an empty
    store starts 30 days back, and day 5 lies in the window from 3 to 7. -/
theorem orchestrator_start_and_coverage_witness :
    computeStartDate (some 100) 200 = 100 + 1 ∧
    computeStartDate none 200 = 200 - 30 ∧
    (5 ∈ datesProcessed 3 7 ↔ 3 ≤ (5 : Int) ∧ (5 : Int) ≤ 7) :=
  ⟨orchestrator_start_and_coverage.1 100 200,
   orchestrator_start_and_coverage.2.1 200,
   orchestrator_start_and_coverage.2.2 3 7 5⟩

/-- Witness for C9 at a concrete article record with escaping-heavy
    strings. -/
theorem stored_entries_roundtrip_witness :
    safe_json_loads_timeline (some ((rowOfData (fun _ => none) []
        { article_url := some "http://example.com/z".data,
          historical_context := [⟨"1945".data, "A \"war\" ends".data,
            "Line one.\nLine two.".data⟩] }
        "http://example.com/z".data).historical_context))
      = [⟨"1945".data, "A \"war\" ends".data, "Line one.\nLine two.".data⟩] ∧
    safe_json_loads_glossary (some ((rowOfData (fun _ => none) []
        { article_url := some "http://example.com/z".data,
          glossary := [⟨"term".data, "def with \\ backslash".data⟩] }
        "http://example.com/z".data).glossary))
      = [⟨"term".data, "def with \\ backslash".data⟩] :=
  ⟨(stored_entries_roundtrip (fun _ => none) []
      { article_url := some "http://example.com/z".data,
        historical_context := [⟨"1945".data, "A \"war\" ends".data,
          "Line one.\nLine two.".data⟩] }
      "http://example.com/z".data).1,
   (stored_entries_roundtrip (fun _ => none) []
      { article_url := some "http://example.com/z".data,
        glossary := [⟨"term".data, "def with \\ backslash".data⟩] }
      "http://example.com/z".data).2⟩
